import Mathlib

/-!
Verification of the OCCO Infrastructure Processor core
(`occo.infraprocessor`): a shallow embedding in Lean 4 of the execution
strategy, cancellation filtering, node-creation synchronization, node
teardown, identity node resolution, and the remote consumer loop, with
theorems checking the documented behaviour against the embedded code.

Each definition is translated from the corresponding Python source
(`strategy.py`, `infraprocessor.py`, `basic_infraprocessor.py`,
`synchronization/__init__.py`, `node_resolution/resolution.py`).
-/

namespace OccoIP

/-! ## Error taxonomy (occo.exceptions.orchestration)

The `Exception`-level classes the strategy code distinguishes:
`MinorInfraProcessorError` (recoverable, node-local),
`NodeCreationError` (carries the `instance_data` of the partially created
node, used for compensation), `CriticalInfraProcessorError` (fatal,
no compensation target), and any other `Exception`.  Instance data is
abstracted to the node identifier it carries. -/

abbrev InstanceData := String

inductive IPError where
  | MinorInfraProcessorError
  | NodeCreationError (instance_data : InstanceData)
  | CriticalInfraProcessorError
  | OtherError
deriving DecidableEq, Repr

/-- A command's result value, abstracted. -/
abbrev CmdResult := Nat

/-! ## `strategy.py` : `SequentialStrategy`

A command submitted to the sequential strategy is modelled by its
observable effect when `perform`ed: it either returns a result, returns a
result and additionally triggers `cancel_pending` on the strategy during
its own execution (the only way the `cancelled` flag can be set
mid-batch in the single-threaded sequential flow), or raises an
`IPError`. -/

inductive CmdEffect where
  | ok (r : CmdResult)
  | okCancels (r : CmdResult)
  | err (e : IPError)
deriving DecidableEq, Repr

/-- `SequentialStrategy._perform` (strategy.py lines 135-153): iterate the
instruction list; before each command, break if `self.cancelled`; perform
the command; a `MinorInfraProcessorError` is logged and recorded as a
`none` entry and the batch continues; any other exception propagates out
of `_perform` (the partial results list is abandoned). -/
def seqPerformLoop (cancelled : Bool) :
    List CmdEffect → Except IPError (List (Option CmdResult))
  | [] => .ok []
  | c :: rest =>
    if cancelled then .ok []
    else
      match c with
      | .ok r => (seqPerformLoop cancelled rest).map (some r :: ·)
      | .okCancels r => (seqPerformLoop true rest).map (some r :: ·)
      | .err .MinorInfraProcessorError =>
          (seqPerformLoop cancelled rest).map (none :: ·)
      | .err e => .error e

/-- `SequentialStrategy.cancel_pending` (strategy.py lines 119-133): if the
`reason` is a `NodeCreationError`, build a compensating DropNode command
from `reason.instance_data` via `infraprocessor.cri_drop_node` and
`perform` it; an exception raised by that undo command — whether a
`NodeCreationError` or any other `Exception` — is logged and swallowed.
Finally `self.cancelled` is set.  `dropBeh` is the behaviour of the
compensating DropNode command's `perform`; the returned list records the
instance data of each compensating DropNode dispatched. -/
def seqCancelPending (dropBeh : InstanceData → Except IPError Unit)
    (reason : Option IPError) : List InstanceData :=
  match reason with
  | some (.NodeCreationError inst_data) =>
      match dropBeh inst_data with
      | .ok _ => [inst_data]
      | .error (.NodeCreationError _) => [inst_data]
      | .error _ => [inst_data]
  | _ => []

/-- The outcome of `Strategy.perform`: the value returned or exception
propagated to the caller, plus the compensating DropNode dispatches made
through `cancel_pending`. -/
structure PerformOutcome where
  result : Except IPError (List (Option CmdResult))
  compensations : List InstanceData
deriving Repr

/-- `Strategy.perform` (strategy.py lines 60-93): run `_perform`; on
`NodeCreationError` or `CriticalInfraProcessorError` call
`_handle_infraprocessorerror`, which invokes `cancel_pending(ex)`, and
re-raise the original exception; other exceptions propagate unhandled. -/
def strategyPerform (dropBeh : InstanceData → Except IPError Unit)
    (cmds : List CmdEffect) : PerformOutcome :=
  match seqPerformLoop false cmds with
  | .ok rs => ⟨.ok rs, []⟩
  | .error e =>
    match e with
    | .NodeCreationError inst_data =>
        ⟨.error (.NodeCreationError inst_data),
         seqCancelPending dropBeh (some (.NodeCreationError inst_data))⟩
    | .CriticalInfraProcessorError =>
        ⟨.error .CriticalInfraProcessorError,
         seqCancelPending dropBeh (some .CriticalInfraProcessorError)⟩
    | e => ⟨.error e, []⟩

/-- Number of commands the sequential loop actually processes (attempts to
perform), following the spec's words: commands are counted up to and
including the first one that fails critically, and up to (excluding) the
point where the cancellation flag stops the batch. -/
def processedCount (cancelled : Bool) : List CmdEffect → Nat
  | [] => 0
  | c :: rest =>
    if cancelled then 0
    else
      match c with
      | .ok _ => 1 + processedCount cancelled rest
      | .okCancels _ => 1 + processedCount true rest
      | .err .MinorInfraProcessorError => 1 + processedCount cancelled rest
      | .err _ => 1

/-- Modelled from the spec: the results list the spec promises for a
sequential batch — one entry per processed command, `none` exactly for
commands failing with a Minor error, stopping early at cancellation;
`none` overall when a critical failure aborts the batch. -/
def specSeqResults (cancelled : Bool) :
    List CmdEffect → Option (List (Option CmdResult))
  | [] => some []
  | c :: rest =>
    if cancelled then some []
    else
      match c with
      | .ok r => (specSeqResults cancelled rest).map (some r :: ·)
      | .okCancels r => (specSeqResults true rest).map (some r :: ·)
      | .err .MinorInfraProcessorError =>
          (specSeqResults cancelled rest).map (none :: ·)
      | .err _ => none

/-! ## `infraprocessor.py` : `InfraProcessor.push_instructions`

Commands carry a creation timestamp (`Command.__init__` captures
`time.time()`); the processor holds a `cancelled_until` watermark and a
strategy whose `cancel_event` is a boolean flag.  `push_instructions`
accepts either a single command or an iterable of commands. -/

structure TCommand where
  timestamp : Nat
deriving DecidableEq, Repr

/-- The argument to `push_instructions`: a single `Command` (no
`__iter__`) or an iterable of commands. -/
inductive Instrs where
  | single (c : TCommand)
  | many (cs : List TCommand)
deriving DecidableEq, Repr

/-- The normalization at the top of `push_instructions` (infraprocessor.py
lines 245-247): a single command is wrapped into a one-element tuple. -/
def toInstructionList : Instrs → List TCommand
  | .single c => [c]
  | .many cs => cs

/-- `InfraProcessor._not_cancelled` (infraprocessor.py lines 221-229):
a command is kept iff its timestamp is strictly after the
`cancelled_until` watermark. -/
def not_cancelled (cancelled_until : Nat) (instruction : TCommand) : Bool :=
  instruction.timestamp > cancelled_until

/-- `InfraProcessor.push_instructions` (infraprocessor.py lines 231-253):
normalize to a list, clear the strategy's `cancel_event`, filter with
`_not_cancelled`, and delegate the filtered list to the strategy.
The result records the batch handed to `strategy.perform` and the value
of the strategy's cancel event at that moment (cleared to `false`). -/
def push_instructions (cancelled_until : Nat) (_cancel_event : Bool)
    (instructions : Instrs) : List TCommand × Bool :=
  let instruction_list := toInstructionList instructions
  let cancel_event := false
  let filtered_list := instruction_list.filter (not_cancelled cancelled_until)
  (filtered_list, cancel_event)

/-! ## `synchronization/__init__.py` : `sleep` and `wait_for_node`

Node statuses (`occo.constants.status`): `READY`, `SHUTDOWN`, `FAIL`, and
the non-terminal rest, collapsed into `PENDING` (only equality with the
three named sentinels matters to the code). -/

inductive NodeStatus where
  | READY
  | SHUTDOWN
  | FAIL
  | PENDING
deriving DecidableEq, Repr

/-- A Python-level error escaping the synchronization code. -/
inductive PyErr where
  | attributeError (attr : String)
deriving DecidableEq, Repr

/-- A `threading.Event` as the synchronization code sees it: its set
state.  The methods the class actually provides are `is_set` and its
Python-2 alias `isSet` (plus `set`, `clear`, `wait`). -/
structure PyEvent where
  set_state : Bool
deriving DecidableEq, Repr

/-- Python attribute lookup of a zero-argument boolean method on a
`threading.Event`: `is_set`/`isSet` return the event's state; any other
attribute name raises `AttributeError`. -/
def eventBoolMethod (ev : PyEvent) (attr : String) : Except PyErr Bool :=
  if attr = "is_set" ∨ attr = "isSet" then .ok ev.set_state
  else .error (.attributeError attr)

/-- `sleep` (synchronization/__init__.py lines 46-57): with a cancel
event, wait on the event up to `timeout`, then test `cancel_event.isset()`
— note the attribute name as written in the source — returning `False` if
the event is set; without a cancel event, `time.sleep(timeout)` and
return `True`.  `set_after_wait` is the event's state when the wait
returns (the event may have been set during the sleep). -/
def sleep (_timeout : Nat) (cancel_event : Option PyEvent)
    (set_after_wait : Bool) : Except PyErr Bool :=
  match cancel_event with
  | some _ =>
      match eventBoolMethod ⟨set_after_wait⟩ "isset" with
      | .error e => .error e
      | .ok b => if b then .ok false else .ok true
  | none => .ok true

/-- How one call to `wait_for_node` ends. -/
inductive WaitOutcome where
  | ready
  | cancelled
  | timedOut
  | failed (st : NodeStatus)
  | pyError (e : PyErr)
deriving DecidableEq, Repr

/-- Python truthiness of the `timeout` argument: `None` and `0` are
falsy, so `if timeout:` arms the deadline only for a nonzero value. -/
def timeoutArmed : Option Nat → Bool
  | none => false
  | some v => v ≠ 0

def timeoutVal : Option Nat → Nat
  | none => 0
  | some v => v

/-- The polling loop of `wait_for_node` (synchronization/__init__.py lines
113-145), under an idealized clock: the status fetches are instantaneous
and each `sleep(poll_delay, ...)` advances time by exactly `poll_delay`,
so the `k`-th poll happens at elapsed time `k * poll_delay` after
`start_time`.  `status k` is the value `ib.get('node.state', ...)`
returns at the `k`-th poll; `cancel_set k` is the cancel event's state
when the `k`-th sleep returns.  Loop body, in source order: exit the
loop if the status is `READY`; raise `NodeCreationTimeOutError` if the
deadline is armed and `time.time() > finish_time`; raise
`NodeFailedError(instance_data, status)` if the status is `SHUTDOWN` or
`FAIL`; sleep, returning `cancelled` if `sleep` reports cancellation;
re-fetch the status and loop.  `fuel` bounds the number of observed
iterations (`none` = still looping after `fuel` polls); a returned pair
gives the poll index at which the call ended and how. -/
def waitLoop (status : Nat → NodeStatus) (cancel_event : Option PyEvent)
    (cancel_set : Nat → Bool) (poll_delay : Nat) (timeout : Option Nat) :
    Nat → Nat → Option (Nat × WaitOutcome)
  | _, 0 => none
  | k, fuel + 1 =>
    if status k = .READY then some (k, .ready)
    else if timeoutArmed timeout ∧ k * poll_delay > timeoutVal timeout then
      some (k, .timedOut)
    else if status k = .SHUTDOWN ∨ status k = .FAIL then
      some (k, .failed (status k))
    else
      match sleep poll_delay cancel_event (cancel_set k) with
      | .error e => some (k, .pyError e)
      | .ok false => some (k, .cancelled)
      | .ok true => waitLoop status cancel_event cancel_set poll_delay timeout (k + 1) fuel

/-! ## `basic_infraprocessor.py` : `DropNode.perform`

The cloud handler and the service composer each hold a set of live
instances; dropping an instance that is no longer present raises a
collaborator error.  `DropNode.perform` (lines 146-148) calls
`infraprocessor.cloudhandler.drop_node(self.instance_data)` and then
`infraprocessor.servicecomposer.drop_node(self.instance_data)`, with no
exception handling of its own. -/

inductive CollabErr where
  | instanceNotFound
deriving DecidableEq, Repr

structure CollabState where
  cloud : List InstanceData
  sc : List InstanceData
deriving DecidableEq, Repr

/-- The cloud handler's `drop_node`: tears the instance down if it still
exists, otherwise reports that the instance no longer exists. -/
def cloudhandler_drop (s : CollabState) (i : InstanceData) :
    Except CollabErr CollabState :=
  if i ∈ s.cloud then .ok { s with cloud := s.cloud.erase i }
  else .error .instanceNotFound

/-- The service composer's `drop_node`: deregisters the instance if it is
still registered, otherwise reports that it no longer exists. -/
def servicecomposer_drop (s : CollabState) (i : InstanceData) :
    Except CollabErr CollabState :=
  if i ∈ s.sc then .ok { s with sc := s.sc.erase i }
  else .error .instanceNotFound

/-- `DropNode.perform` (basic_infraprocessor.py lines 146-148): cloud
handler teardown, then service composer deregistration; collaborator
exceptions propagate (there is no `try`/`except` in the method). -/
def dropNode_perform (s : CollabState) (instance_data : InstanceData) :
    Except CollabErr CollabState :=
  match cloudhandler_drop s instance_data with
  | .error e => .error e
  | .ok s' => servicecomposer_drop s' instance_data

/-! ## `node_resolution/resolution.py` : `IdentityResolver`

Node definitions are loosely-typed string-keyed dictionaries; values are
abstracted to an arbitrary payload type realized as `String` for
concrete evaluation.  Python dictionary assignment replaces the value of
an existing key or appends a new binding. -/

abbrev Val := String

abbrev PyDict := List (String × Val)

/-- `d[k]` lookup. -/
def dictGet : PyDict → String → Option Val
  | [], _ => none
  | (k', v) :: rest, k => if k' = k then some v else dictGet rest k

/-- `d[k] = v` assignment: replace the value of the existing binding of
`k` (keys are unique in a Python dict, insertion order is kept), else
append a new binding. -/
def dictSet : PyDict → String → Val → PyDict
  | [], k, v => [(k, v)]
  | (k', v') :: rest, k, v =>
      if k' = k then (k, v) :: rest else (k', v') :: dictSet rest k v

/-- The node description fields the identity resolver reads. -/
structure NodeDesc where
  infra_id : Val
  user_id : Val
deriving DecidableEq, Repr

/-- `IdentityResolver.resolve_node` (resolution.py lines 99-106): mutate
the node definition in place, setting `node_id` from the generated node
id and `infra_id`, `user_id` from the node description. -/
def identityResolveNode (node_id : Val) (desc : NodeDesc)
    (node_definition : PyDict) : PyDict :=
  let d1 := dictSet node_definition "node_id" node_id
  let d2 := dictSet d1 "infra_id" desc.infra_id
  dictSet d2 "user_id" desc.user_id

/-! ## `infraprocessor.py` : `RemoteInfraProcessorSkeleton.start_consuming`

The consumer loop (lines 609-627) polls, while not cancelled, first the
control-queue consumer and then the work-queue consumer, once each per
cycle.  The trace records the polls in program order; `cancelled n` is
the value of the skeleton's `cancelled` property at the top of the
`n`-th cycle, and `fuel` bounds the number of observed cycles. -/

inductive PollEvent where
  | control (cycle : Nat)
  | work (cycle : Nat)
deriving DecidableEq, Repr

def startConsuming (cancelled : Nat → Bool) : Nat → Nat → List PollEvent
  | _, 0 => []
  | cycle, fuel + 1 =>
    if cancelled cycle then []
    else .control cycle :: .work cycle ::
      startConsuming cancelled (cycle + 1) fuel

/-! ## Helper lemmas -/

theorem dictGet_dictSet_self (d : PyDict) (k : String) (v : Val) :
    dictGet (dictSet d k v) k = some v := by
  induction d with
  | nil => simp [dictSet, dictGet]
  | cons p rest ih =>
      obtain ⟨k', v'⟩ := p
      by_cases h : k' = k
      · simp [dictSet, h, dictGet]
      · simp [dictSet, h, dictGet, ih]

theorem dictGet_dictSet_ne (d : PyDict) (k k' : String) (v : Val)
    (h : k' ≠ k) : dictGet (dictSet d k v) k' = dictGet d k' := by
  have h' : k ≠ k' := Ne.symm h
  induction d with
  | nil => simp [dictSet, dictGet, h']
  | cons p rest ih =>
      obtain ⟨k₀, v₀⟩ := p
      by_cases h₀ : k₀ = k
      · subst h₀
        simp [dictSet, dictGet, h']
      · simp only [dictSet, if_neg h₀, dictGet]
        by_cases h₁ : k₀ = k'
        · simp [h₁]
        · simp [h₁, ih]

end OccoIP

namespace OccoIP

/-! ## Claim theorems -/

/-- C8: for every node definition passed to the "cooked" (identity)
resolver's `resolve_node`, every key other than the three injected ones
keeps exactly the value it had in the definition, and `node_id`,
`infra_id` and `user_id` are set to the generated node id and the node
description's `infra_id` and `user_id` respectively. -/
theorem identity_resolver_frame (node_id : Val) (desc : NodeDesc)
    (d : PyDict) :
    (∀ k, k ≠ "node_id" → k ≠ "infra_id" → k ≠ "user_id" →
        dictGet (identityResolveNode node_id desc d) k = dictGet d k) ∧
    dictGet (identityResolveNode node_id desc d) "node_id" = some node_id ∧
    dictGet (identityResolveNode node_id desc d) "infra_id"
      = some desc.infra_id ∧
    dictGet (identityResolveNode node_id desc d) "user_id"
      = some desc.user_id := by
  unfold identityResolveNode
  refine ⟨fun k h1 h2 h3 => ?_, ?_, ?_, ?_⟩
  · rw [dictGet_dictSet_ne _ _ _ _ h3, dictGet_dictSet_ne _ _ _ _ h2,
      dictGet_dictSet_ne _ _ _ _ h1]
  · rw [dictGet_dictSet_ne _ _ _ _ (by decide),
      dictGet_dictSet_ne _ _ _ _ (by decide), dictGet_dictSet_self]
  · rw [dictGet_dictSet_ne _ _ _ _ (by decide), dictGet_dictSet_self]
  · rw [dictGet_dictSet_self]

/-- Witness for C8 at a concrete node definition: the pre-existing
`"context"` binding is untouched and the three ids are injected. -/
theorem identity_resolver_frame_witness :
    dictGet (identityResolveNode "id-1" ⟨"infra-1", "user-1"⟩
      [("context", "ctx")]) "context" = some "ctx" ∧
    dictGet (identityResolveNode "id-1" ⟨"infra-1", "user-1"⟩
      [("context", "ctx")]) "node_id" = some "id-1" :=
  ⟨(identity_resolver_frame "id-1" ⟨"infra-1", "user-1"⟩
      [("context", "ctx")]).1 "context" (by decide) (by decide) (by decide),
   (identity_resolver_frame "id-1" ⟨"infra-1", "user-1"⟩
      [("context", "ctx")]).2.1⟩

/-- C3: `push_instructions` never hands the strategy a command whose
timestamp is at or before `cancelled_until`, always hands it one whose
timestamp is strictly after (if it is in the submitted batch), normalizes
a single command to a one-element batch, and delegates with the
strategy's cancel event cleared. -/
theorem push_instructions_spec (cancelled_until : Nat) (cancel_event : Bool)
    (instrs : Instrs) (c : TCommand) :
    (c.timestamp ≤ cancelled_until →
      c ∉ (push_instructions cancelled_until cancel_event instrs).1) ∧
    (c ∈ toInstructionList instrs → c.timestamp > cancelled_until →
      c ∈ (push_instructions cancelled_until cancel_event instrs).1) ∧
    toInstructionList (Instrs.single c) = [c] ∧
    (push_instructions cancelled_until cancel_event instrs).2 = false := by
  refine ⟨fun hle hmem => ?_, fun hmem hgt => ?_, rfl, rfl⟩
  · rw [push_instructions, List.mem_filter] at hmem
    have := hmem.2
    simp only [not_cancelled, decide_eq_true_eq] at this
    omega
  · rw [push_instructions, List.mem_filter]
    exact ⟨hmem, by simpa [not_cancelled] using hgt⟩

/-- Witness for C3: with watermark 5, a command stamped 3 is dropped and
a command stamped 7 is delegated. -/
theorem push_instructions_spec_witness :
    TCommand.mk 3 ∉ (push_instructions 5 true
      (Instrs.many [⟨3⟩, ⟨7⟩])).1 ∧
    TCommand.mk 7 ∈ (push_instructions 5 true
      (Instrs.many [⟨3⟩, ⟨7⟩])).1 :=
  ⟨(push_instructions_spec 5 true (Instrs.many [⟨3⟩, ⟨7⟩]) ⟨3⟩).1
      (by decide),
   (push_instructions_spec 5 true (Instrs.many [⟨3⟩, ⟨7⟩]) ⟨7⟩).2.1
      (by decide) (by decide)⟩

/-- C6 (code bug): the cancellation path of `sleep` does not complete
normally — with a cancel event supplied, `sleep` calls
`cancel_event.isset()`, an attribute `threading.Event` does not provide
(the methods are `is_set`/`isSet`), so an `AttributeError` is raised
instead of returning `False` to report cancellation; consequently
`wait_for_node` with a cancel event set during the sleep propagates the
`AttributeError` rather than returning normally. -/
theorem sleep_cancel_path_raises :
    sleep 10 (some ⟨false⟩) true = .error (.attributeError "isset") ∧
    eventBoolMethod ⟨true⟩ "is_set" = .ok true ∧
    eventBoolMethod ⟨true⟩ "isSet" = .ok true ∧
    waitLoop (fun _ => .PENDING) (some ⟨false⟩) (fun _ => true) 2 none 0 3
      = some (0, .pyError (.attributeError "isset")) := by
  refine ⟨rfl, rfl, rfl, rfl⟩

/-- Counterexample for C7: on a state where the instance exists on both
sides, the first `DropNode.perform` succeeds; the second invocation's
cloud-handler "instance no longer exists" error propagates out of
`perform` instead of being swallowed. -/
theorem dropnode_second_call_raises :
    dropNode_perform ⟨["n1"], ["n1"]⟩ "n1" = .ok ⟨[], []⟩ ∧
    dropNode_perform ⟨[], []⟩ "n1" = .error .instanceNotFound := by
  refine ⟨rfl, rfl⟩

/-- C7 as amended: performing `DropNode` twice on the same instance data
produces one success and then one hard error — the second invocation's
collaborator instance-no-longer-exists error is raised out of
`DropNode.perform`, not swallowed (swallowing happens only when DropNode
runs as a compensating action inside the strategy's `cancel_pending`). -/
theorem dropnode_twice_propagates (s : CollabState) (i : InstanceData)
    (h1 : i ∈ s.cloud) (h2 : i ∈ s.sc) (hnd : s.cloud.Nodup) :
    dropNode_perform s i = .ok ⟨s.cloud.erase i, s.sc.erase i⟩ ∧
    dropNode_perform ⟨s.cloud.erase i, s.sc.erase i⟩ i
      = .error .instanceNotFound := by
  constructor
  · simp [dropNode_perform, cloudhandler_drop, servicecomposer_drop, h1, h2]
  · simp [dropNode_perform, cloudhandler_drop, hnd.not_mem_erase]

/-- Witness for C7's amended theorem on a two-node state. -/
theorem dropnode_twice_propagates_witness :
    dropNode_perform ⟨["n1", "n2"], ["n1"]⟩ "n1"
      = .ok ⟨["n2"], []⟩ ∧
    dropNode_perform ⟨["n2"], []⟩ "n1" = .error .instanceNotFound :=
  dropnode_twice_propagates ⟨["n1", "n2"], ["n1"]⟩ "n1"
    (by decide) (by decide) (by decide)


/-- C1: when the sequential batch execution raises a `NodeCreationError`,
`Strategy.perform` dispatches exactly one compensating DropNode, built
from the `instance_data` embedded in the error, and the error propagated
to the caller is the original `NodeCreationError` — whatever the
compensating DropNode's own `perform` does (succeed or raise), its
outcome is swallowed and never replaces the original error. -/
theorem perform_compensates_node_creation_error (cmds : List CmdEffect)
    (dropBeh : InstanceData → Except IPError Unit) (inst_data : InstanceData)
    (h : seqPerformLoop false cmds = .error (.NodeCreationError inst_data)) :
    (strategyPerform dropBeh cmds).result
      = .error (.NodeCreationError inst_data) ∧
    (strategyPerform dropBeh cmds).compensations = [inst_data] := by
  unfold strategyPerform
  rw [h]
  refine ⟨rfl, ?_⟩
  show seqCancelPending dropBeh (some (.NodeCreationError inst_data))
    = [inst_data]
  unfold seqCancelPending
  cases h' : dropBeh inst_data with
  | ok u => simp [h']
  | error e => cases e <;> simp [h']

/-- C2 as amended: whenever the sequential `perform` does return a
results list (that is, no command failed critically — on a critical
failure the exception propagates and no list is returned), the list has
exactly one entry per command processed before the cancellation cut-off,
trailing entries absent, and it agrees with the spec-side reference
results in which a `MinorInfraProcessorError` contributes a null entry
and the batch continues. -/
theorem seq_results_shape (cmds : List CmdEffect)
    (dropBeh : InstanceData → Except IPError Unit)
    (rs : List (Option CmdResult))
    (h : (strategyPerform dropBeh cmds).result = .ok rs) :
    rs.length = processedCount false cmds ∧
    specSeqResults false cmds = some rs := by
  have hloop : seqPerformLoop false cmds = .ok rs := by
    unfold strategyPerform at h
    cases hl : seqPerformLoop false cmds with
    | ok rs' => rw [hl] at h; cases h; rfl
    | error e => rw [hl] at h; cases e <;> simp_all
  clear h
  suffices H : ∀ (cancelled : Bool) (cmds : List CmdEffect)
      (rs : List (Option CmdResult)),
      seqPerformLoop cancelled cmds = .ok rs →
      rs.length = processedCount cancelled cmds ∧
      specSeqResults cancelled cmds = some rs from H false cmds rs hloop
  intro cancelled cmds
  induction cmds generalizing cancelled with
  | nil =>
      intro rs h
      cases h
      simp [processedCount, specSeqResults]
  | cons c rest ih =>
      intro rs h
      cases cancelled with
      | true =>
          simp only [seqPerformLoop, if_true] at h
          cases h
          simp [processedCount, specSeqResults]
      | false =>
          cases c with
          | ok r =>
              simp only [seqPerformLoop, Bool.false_eq_true, if_false] at h
              cases hl : seqPerformLoop false rest with
              | ok rs' =>
                  rw [hl] at h
                  cases h
                  have := ih false rs' hl
                  exact ⟨by simp [processedCount, this.1, Nat.add_comm],
                         by simp [specSeqResults, this.2]⟩
              | error e => rw [hl] at h; cases h
          | okCancels r =>
              simp only [seqPerformLoop, Bool.false_eq_true, if_false] at h
              cases hl : seqPerformLoop true rest with
              | ok rs' =>
                  rw [hl] at h
                  cases h
                  have := ih true rs' hl
                  exact ⟨by simp [processedCount, this.1, Nat.add_comm],
                         by simp [specSeqResults, this.2]⟩
              | error e => rw [hl] at h; cases h
          | err e =>
              cases e with
              | MinorInfraProcessorError =>
                  simp only [seqPerformLoop, Bool.false_eq_true, if_false] at h
                  cases hl : seqPerformLoop false rest with
                  | ok rs' =>
                      rw [hl] at h
                      cases h
                      have := ih false rs' hl
                      exact ⟨by simp [processedCount, this.1, Nat.add_comm],
                             by simp [specSeqResults, this.2]⟩
                  | error e => rw [hl] at h; cases h
              | NodeCreationError i =>
                  simp only [seqPerformLoop, Bool.false_eq_true, if_false] at h
                  cases h
              | CriticalInfraProcessorError =>
                  simp only [seqPerformLoop, Bool.false_eq_true, if_false] at h
                  cases h
              | OtherError =>
                  simp only [seqPerformLoop, Bool.false_eq_true, if_false] at h
                  cases h


/-- Witness for C1: a batch whose second command fails with
`NodeCreationError "n1"` under a compensating DropNode that itself
raises; the original error still propagates and the compensation is
dispatched for `"n1"`. -/
theorem perform_compensates_witness :
    (strategyPerform (fun _ => .error .OtherError)
        [.ok 5, .err (.NodeCreationError "n1")]).result
      = .error (.NodeCreationError "n1") ∧
    (strategyPerform (fun _ => .error .OtherError)
        [.ok 5, .err (.NodeCreationError "n1")]).compensations = ["n1"] :=
  perform_compensates_node_creation_error
    [.ok 5, .err (.NodeCreationError "n1")]
    (fun _ => .error .OtherError) "n1" rfl

/-- Counterexample for C2: a sequential batch whose only command fails
with `CriticalInfraProcessorError` makes `perform` propagate the
exception — no results list at all is returned to the caller, so the
claimed "results list whose length equals the number of commands
processed up to and including the first critical failure" does not
exist. -/
theorem seq_critical_returns_no_list :
    (strategyPerform (fun _ => .ok ())
        [.err .CriticalInfraProcessorError]).result
      = .error .CriticalInfraProcessorError ∧
    ((strategyPerform (fun _ => .ok ())
        [.err .CriticalInfraProcessorError]).result).toOption = none :=
  ⟨rfl, rfl⟩

/-- Witness for C2's amended theorem: a batch with a success, a Minor
failure, a success that triggers cancellation, and a trailing never-run
command yields three entries (null for the Minor failure) with nothing
for the cancelled tail. -/
theorem seq_results_shape_witness :
    ([some 1, none, some 2] : List (Option CmdResult)).length
      = processedCount false
        [.ok 1, .err .MinorInfraProcessorError, .okCancels 2, .ok 3] ∧
    specSeqResults false
        [.ok 1, .err .MinorInfraProcessorError, .okCancels 2, .ok 3]
      = some [some 1, none, some 2] :=
  seq_results_shape
    [.ok 1, .err .MinorInfraProcessorError, .okCancels 2, .ok 3]
    (fun _ => .ok ()) [some 1, none, some 2] rfl


/-- C4: with a configured timeout `T > 0` and poll interval `P > 0`, for
an instance whose observed status never becomes READY, SHUTDOWN or FAIL,
`wait_for_node` terminates by raising `NodeCreationTimeOutError` at poll
iteration `T / P + 1` — the first iteration whose start time `k * P`
exceeds `start_time + T` — and the elapsed time `(T / P + 1) * P` at
that moment is at most `T + P`. -/
theorem waitLoop_pending_times_out (status : Nat → NodeStatus)
    (cs : Nat → Bool) (P T : Nat) (hP : 0 < P) (hT : 0 < T)
    (hst : ∀ k, status k = .PENDING) :
    waitLoop status none cs P (some T) 0 (T / P + 2)
      = some (T / P + 1, .timedOut) ∧ (T / P + 1) * P ≤ T + P := by
  constructor
  · have key : ∀ fuel k, k + fuel = T / P + 2 → k ≤ T / P + 1 →
        waitLoop status none cs P (some T) k fuel
          = some (T / P + 1, .timedOut) := by
      intro fuel
      induction fuel with
      | zero => intro k hk hle; omega
      | succ fuel ih =>
          intro k hk hle
          have c1 : ¬ (status k = NodeStatus.READY) := by simp [hst k]
          have c3 : ¬ (status k = NodeStatus.SHUTDOWN ∨
              status k = NodeStatus.FAIL) := by simp [hst k]
          rcases Nat.lt_or_ge k (T / P + 1) with hlt | hge
          · have hkP : k * P ≤ T := (Nat.le_div_iff_mul_le hP).mp (by omega)
            have c2 : ¬ ((timeoutArmed (some T) = true) ∧
                k * P > timeoutVal (some T)) := by
              intro hand
              have h2 := hand.2
              simp only [timeoutVal] at h2
              omega
            rw [waitLoop, if_neg c1, if_neg c2, if_neg c3]
            show waitLoop status none cs P (some T) (k + 1) fuel = _
            exact ih (k + 1) (by omega) (by omega)
          · have hkeq : k = T / P + 1 := by omega
            subst hkeq
            have hgt : (T / P + 1) * P > T :=
              (Nat.div_lt_iff_lt_mul hP).mp (Nat.lt_succ_self _)
            have c2 : (timeoutArmed (some T) = true) ∧
                (T / P + 1) * P > timeoutVal (some T) := by
              constructor
              · simp [timeoutArmed]
                omega
              · simpa [timeoutVal] using hgt
            rw [waitLoop, if_neg c1, if_pos c2]
    exact key (T / P + 2) 0 (Nat.zero_add _) (Nat.zero_le _)
  · have := Nat.div_mul_le_self T P
    calc (T / P + 1) * P = T / P * P + P := by ring
    _ ≤ T + P := by omega

/-- C10: when `timeout` is `None` or `0` (Python-falsy, so the deadline
is never armed), `wait_for_node` never raises
`NodeCreationTimeOutError`, no matter how many poll iterations elapse,
whatever the status schedule, cancel event or poll interval; and with a
status that stays pending forever and no cancel event, the loop runs
unbounded (it is still looping after any number of iterations). -/
theorem waitLoop_no_timeout_unarmed (t : Option Nat)
    (ht : timeoutArmed t = false) :
    (∀ (status : Nat → NodeStatus) (ce : Option PyEvent) (cs : Nat → Bool)
        (P k fuel j : Nat),
        waitLoop status ce cs P t k fuel ≠ some (j, .timedOut)) ∧
    (∀ (cs : Nat → Bool) (P k fuel : Nat),
        waitLoop (fun _ => .PENDING) none cs P t k fuel = none) := by
  constructor
  · intro status ce cs P k fuel j
    induction fuel generalizing k with
    | zero => simp [waitLoop]
    | succ fuel ih =>
        rw [waitLoop]
        have c2 : ¬ ((timeoutArmed t = true) ∧ k * P > timeoutVal t) := by
          simp [ht]
        by_cases c1 : status k = NodeStatus.READY
        · simp [c1]
        · rw [if_neg c1, if_neg c2]
          by_cases c3 : status k = NodeStatus.SHUTDOWN ∨
              status k = NodeStatus.FAIL
          · simp [if_pos c3]
          · rw [if_neg c3]
            cases hs : sleep P ce (cs k) with
            | error e => simp
            | ok b => cases b <;> simp [ih]
  · intro cs P k fuel
    induction fuel generalizing k with
    | zero => rfl
    | succ fuel ih =>
        rw [waitLoop]
        have c2 : ¬ ((timeoutArmed t = true) ∧ k * P > timeoutVal t) := by
          simp [ht]
        rw [if_neg (by simp), if_neg c2, if_neg (by simp)]
        show waitLoop _ none cs P t (k + 1) fuel = none
        exact ih (k + 1)

/-- C5 as amended: in `wait_for_node` the deadline check is applied
before the terminal-failure check.  On an iteration where the status is
not READY: if the deadline is armed and exceeded,
`NodeCreationTimeOutError` is raised — even if the status is
SHUTDOWN/FAIL on that same iteration; only when the deadline is not
exceeded does an observed SHUTDOWN/FAIL status raise `NodeFailedError`
carrying the observed status. -/
theorem waitLoop_deadline_before_failure (status : Nat → NodeStatus)
    (ce : Option PyEvent) (cs : Nat → Bool) (P : Nat) (t : Option Nat)
    (k fuel : Nat) (hnr : status k ≠ NodeStatus.READY) :
    ((timeoutArmed t = true) → k * P > timeoutVal t →
      waitLoop status ce cs P t k (fuel + 1) = some (k, .timedOut)) ∧
    (¬ ((timeoutArmed t = true) ∧ k * P > timeoutVal t) →
      (status k = NodeStatus.SHUTDOWN ∨ status k = NodeStatus.FAIL) →
      waitLoop status ce cs P t k (fuel + 1)
        = some (k, .failed (status k))) := by
  constructor
  · intro ha hgt
    rw [waitLoop, if_neg hnr, if_pos ⟨ha, hgt⟩]
  · intro hna hfail
    rw [waitLoop, if_neg hnr, if_neg hna, if_pos hfail]

/-- Helper: events emitted by the consumer loop belong to cycles at or
after the starting cycle. -/
theorem startConsuming_cycle_ge (cancelled : Nat → Bool) :
    ∀ (fuel start i : Nat),
      (PollEvent.control i ∈ startConsuming cancelled start fuel ∨
       PollEvent.work i ∈ startConsuming cancelled start fuel) →
      start ≤ i := by
  intro fuel
  induction fuel with
  | zero => intro start i h; simp [startConsuming] at h
  | succ fuel ih =>
      intro start i h
      rw [startConsuming] at h
      by_cases hc : cancelled start = true
      · simp [hc] at h
      · rw [if_neg hc] at h
        rcases h with h | h <;>
          simp only [List.mem_cons] at h <;>
          rcases h with h | h | h
        · cases h; omega
        · cases h
        · have := ih (start + 1) i (Or.inl h); omega
        · cases h
        · cases h; omega
        · have := ih (start + 1) i (Or.inr h); omega

/-- C9: in every cycle of `RemoteInfraProcessorSkeleton.start_consuming`,
the control-queue consumer is polled strictly before the work-queue
consumer: whenever the work poll of cycle `i` occurs in the trace, the
control poll of cycle `i` also occurs, at an earlier position — so a
pending management command is processed before any work-queue batch
received in the same cycle. -/
theorem control_polled_before_work (cancelled : Nat → Bool)
    (fuel start i : Nat)
    (hw : PollEvent.work i ∈ startConsuming cancelled start fuel) :
    PollEvent.control i ∈ startConsuming cancelled start fuel ∧
    (startConsuming cancelled start fuel).indexOf (PollEvent.control i) <
      (startConsuming cancelled start fuel).indexOf (PollEvent.work i) := by
  induction fuel generalizing start with
  | zero => simp [startConsuming] at hw
  | succ fuel ih =>
      rw [startConsuming] at hw ⊢
      by_cases hc : cancelled start = true
      · simp [hc] at hw
      · rw [if_neg hc] at hw ⊢
        by_cases hi : i = start
        · subst hi
          refine ⟨List.mem_cons_self _ _, ?_⟩
          rw [List.indexOf_cons_self]
          rw [List.indexOf_cons_ne _ (by simp)]
          omega
        · have hsi : start ≠ i := fun e => hi e.symm
          have hw' : PollEvent.work i ∈
              startConsuming cancelled (start + 1) fuel := by
            simp only [List.mem_cons] at hw
            rcases hw with h | h | h
            · cases h
            · injection h with h2
              exact absurd h2 hi
            · exact h
          have hge := startConsuming_cycle_ge cancelled fuel (start + 1) i
            (Or.inr hw')
          have ⟨hmem, hidx⟩ := ih (start + 1) hw'
          refine ⟨by simp [hmem], ?_⟩
          rw [List.indexOf_cons_ne _ (by simp [hsi]),
              List.indexOf_cons_ne _ (by simp [hsi]),
              List.indexOf_cons_ne _ (by simp),
              List.indexOf_cons_ne _ (by simp [hsi])]
          omega


/-- Witness for C4: timeout 7, poll interval 3, a never-ready node: the
timeout error is raised at poll 3, elapsed 9 ≤ 10. -/
theorem waitLoop_pending_times_out_witness :
    waitLoop (fun _ => .PENDING) none (fun _ => false) 3 (some 7) 0
        (7 / 3 + 2) = some (7 / 3 + 1, .timedOut) ∧
    (7 / 3 + 1) * 3 ≤ 7 + 3 :=
  waitLoop_pending_times_out (fun _ => .PENDING) (fun _ => false) 3 7
    (by decide) (by decide) (fun _ => rfl)

/-- Witness for C10: with `timeout=None` a forever-failing node never
yields a timeout, and with `timeout=0` a forever-pending node loops
unbounded. -/
theorem waitLoop_no_timeout_unarmed_witness :
    waitLoop (fun _ => .FAIL) none (fun _ => false) 2 none 0 4
      ≠ some (0, .timedOut) ∧
    waitLoop (fun _ => .PENDING) none (fun _ => false) 2 (some 0) 5 9
      = none :=
  ⟨(waitLoop_no_timeout_unarmed none rfl).1 (fun _ => .FAIL) none
      (fun _ => false) 2 0 4 0,
   (waitLoop_no_timeout_unarmed (some 0) rfl).2 (fun _ => false) 2 5 9⟩

/-- Counterexample for C5: a node observed in FAIL on the iteration at
which the deadline has also been exceeded makes `wait_for_node` raise
`NodeCreationTimeOutError`, not `NodeFailedError`: with timeout 1 and
poll interval 2, the status schedule PENDING, FAIL, FAIL, ... times out
at poll 1 although the status observed at poll 1 is FAIL. -/
theorem wait_fail_after_deadline_counterexample :
    waitLoop (fun k => if k = 0 then .PENDING else .FAIL) none
        (fun _ => false) 2 (some 1) 0 5 = some (1, .timedOut) ∧
    (if 1 = 0 then NodeStatus.PENDING else NodeStatus.FAIL)
      = NodeStatus.FAIL :=
  ⟨rfl, rfl⟩

/-- Witness for C5's amended theorem: a FAIL status raises
`NodeFailedError` while the deadline is not yet exceeded, and the very
same status raises `NodeCreationTimeOutError` once it is. -/
theorem waitLoop_deadline_before_failure_witness :
    waitLoop (fun _ => .FAIL) none (fun _ => false) 2 (some 10) 0 1
      = some (0, .failed .FAIL) ∧
    waitLoop (fun _ => .FAIL) none (fun _ => false) 2 (some 1) 1 1
      = some (1, .timedOut) :=
  ⟨(waitLoop_deadline_before_failure (fun _ => .FAIL) none (fun _ => false)
      2 (some 10) 0 0 (by decide)).2 (by decide) (Or.inr rfl),
   (waitLoop_deadline_before_failure (fun _ => .FAIL) none (fun _ => false)
      2 (some 1) 1 0 (by decide)).1 rfl (by decide)⟩

/-- Witness for C9: two cycles before cancellation; the control poll of
cycle 0 precedes the work poll of cycle 0. -/
theorem control_polled_before_work_witness :
    PollEvent.control 0 ∈ startConsuming (fun n => decide (1 ≤ n)) 0 3 ∧
    (startConsuming (fun n => decide (1 ≤ n)) 0 3).indexOf
        (PollEvent.control 0) <
      (startConsuming (fun n => decide (1 ≤ n)) 0 3).indexOf
        (PollEvent.work 0) :=
  control_polled_before_work (fun n => decide (1 ≤ n)) 3 0 0 (by decide)

end OccoIP
